import Mathlib
set_option maxRecDepth 8192

/-
  Verification development for the local-server-video repository.

  Shallow embedding of the caching / telemetry core:
  - RateLimiter.is_allowed            (backend/app/core/rate_limiter.py)
  - PerformanceMetrics._prune_deque, record_endpoint_latency,
    _get_latency_percentiles          (backend/app/admin/performance.py)
  - VideoCache.update_rating, get_tags, get_related_videos_optimized,
    get_popular_tags                  (cache_manager.py)
  - RatingsService.set_rating, validate_rating
                                      (backend/services/ratings_service.py)
  - DatabaseSession.execute_with_retry (backend/app/core/db.py)
  - VideoDatabase.update_rating       (database_migration.py)

  Wall-clock timestamps and float quantities are modelled as rationals;
  Python dicts (insertion ordered) as association lists.
-/

namespace LSV

/-! ## Rate limiter (backend/app/core/rate_limiter.py) -/

/-- Result of one admission check: the allowed flag plus the info dict
returned by RateLimiter.is_allowed. -/
structure RLResult where
  allowed : Bool
  remaining : Nat
  resetIn : Nat
  deriving Repr, DecidableEq

/-- The purge step of is_allowed: keep only timestamps strictly newer than
window_start (the Python list comprehension keeps ts with ts > window_start). -/
def purgeWindow (windowStart : ℚ) (reqs : List ℚ) : List ℚ :=
  reqs.filter (fun ts => windowStart < ts)

/-- Python min over a list of timestamps (0 on the empty list, which the
code never reaches because it guards on non-emptiness). -/
def listMin : List ℚ → ℚ
  | [] => 0
  | [t] => t
  | t :: u :: rest => min t (listMin (u :: rest))

/-- RateLimiter.is_allowed for a single client key.  Input: the stored
timestamp list for that key and the current time; output: the result and
the new stored timestamp list.  Follows rate_limiter.py lines 46-79:
purge, count, remaining = max(0, max_requests - count - 1), reset_in from
the oldest surviving timestamp, then either record now and allow or deny. -/
def isAllowed (maxRequests : Nat) (windowSeconds : ℚ) (reqs : List ℚ)
    (now : ℚ) : RLResult × List ℚ :=
  let windowStart := now - windowSeconds
  let purged := purgeWindow windowStart reqs
  let currentCount := purged.length
  let remaining : Nat := ((maxRequests : ℤ) - currentCount - 1).toNat
  let resetIn : Nat :=
    if purged.isEmpty then 0
    else max 1 (Int.toNat ⌊listMin purged + windowSeconds - now⌋)
  if currentCount < maxRequests then
    (⟨true, remaining, resetIn⟩, purged ++ [now])
  else
    (⟨false, 0, resetIn⟩, purged)

/-- Run a sequence of is_allowed calls at the given times, collecting the
results and threading the stored timestamp list. -/
def runCalls (maxRequests : Nat) (windowSeconds : ℚ) (reqs : List ℚ) :
    List ℚ → List RLResult × List ℚ
  | [] => ([], reqs)
  | t :: ts =>
      let step := isAllowed maxRequests windowSeconds reqs t
      let rest := runCalls maxRequests windowSeconds step.2 ts
      (step.1 :: rest.1, rest.2)

/-! ## Performance metrics (backend/app/admin/performance.py) -/

/-- MAX_WINDOW_SECONDS -/
def maxWindowSeconds : ℚ := 3600

/-- MAX_SAMPLES_PER_ROUTE -/
def maxSamplesPerRoute : Nat := 500

/-- A latency sample, reduced to the fields _prune_deque inspects plus an
identifying payload: (timestamp, sample id). -/
abbrev MSample := ℚ × Nat

/-- First while loop of _prune_deque: popleft while the front sample's
timestamp is `< cutoff`.  Stops at the first sample at or after cutoff. -/
def pruneAge (cutoff : ℚ) : List MSample → List MSample
  | [] => []
  | s :: rest => if s.1 < cutoff then pruneAge cutoff rest else s :: rest

/-- Second while loop of _prune_deque: popleft while the length exceeds
MAX_SAMPLES_PER_ROUTE. -/
def pruneLen (dq : List MSample) : List MSample :=
  if maxSamplesPerRoute < dq.length then pruneLen (dq.drop 1) else dq
  termination_by dq.length
  decreasing_by simp; omega

/-- PerformanceMetrics._prune_deque: age prune then length prune. -/
def pruneDeque (now : ℚ) (dq : List MSample) : List MSample :=
  pruneLen (pruneAge (now - maxWindowSeconds) dq)

/-- The deque state touched by record_endpoint_latency: the per-route
deques (defaultdict keyed by route_key) and the global deque. -/
structure MetricsState where
  routeSamples : List (String × List MSample)
  globalSamples : List MSample
  deriving Repr, DecidableEq

/-- defaultdict read: missing keys give an empty deque. -/
def getRoute (rs : List (String × List MSample)) (k : String) : List MSample :=
  (rs.lookup k).getD []

/-- Store a route's deque back: Python dict assignment replaces the value
of an existing key in place (keys are unique) and appends a missing key at
the end, preserving insertion order. -/
def setRoute : List (String × List MSample) → String → List MSample →
    List (String × List MSample)
  | [], k, dq => [(k, dq)]
  | p :: rest, k, dq =>
      if p.1 = k then (k, dq) :: rest else p :: setRoute rest k dq

/-- PerformanceMetrics.record_endpoint_latency, restricted to its deque
effects: append the sample to the route deque and the global deque, then
prune both with _prune_deque. -/
def recordEndpointLatency (st : MetricsState) (routeKey : String)
    (now : ℚ) (sid : Nat) : MetricsState :=
  let s : MSample := (now, sid)
  let dq := pruneDeque now (getRoute st.routeSamples routeKey ++ [s])
  { routeSamples := setRoute st.routeSamples routeKey dq
    globalSamples := pruneDeque now (st.globalSamples ++ [s]) }

/-- The per-deque effect of one record_endpoint_latency call: append the
sample, then _prune_deque. -/
def stepDq (dq : List MSample) (s : MSample) : List MSample :=
  pruneDeque s.1 (dq ++ [s])

/-- Fold record_endpoint_latency over a list of (timestamp, id) samples,
all for the same route key. -/
def recordMany (st : MetricsState) (routeKey : String)
    (samples : List MSample) : MetricsState :=
  samples.foldl (fun acc s => recordEndpointLatency acc routeKey s.1 s.2) st

/-- The single interpolation rule of statistics.quantiles(values, n=100)
(method exclusive, the default), at cut point i of 1..99: with the data
sorted ascending and ld its length, j := i*(ld+1) // 100 clamped into
[1, ld-1], delta := i*(ld+1) - j*100 (computed after the clamp, so it may
leave [0, 100]), result (data[j-1]*(100-delta) + data[j]*delta)/100. -/
def quantRule (values : List ℚ) (i : Nat) : ℚ :=
  let s := values.mergeSort (fun a b => a ≤ b)
  let ld := s.length
  let j0 := i * (ld + 1) / 100
  let j := if j0 < 1 then 1 else if ld - 1 < j0 then ld - 1 else j0
  let delta : ℤ := (i * (ld + 1) : ℤ) - (j : ℤ) * 100
  (s.getD (j - 1) 0 * (((100 : ℤ) - delta : ℤ) : ℚ) + s.getD j 0 * (delta : ℚ)) / 100

/-- statistics.quantiles(values, n=100): the 99 cut points. -/
def quantilesExc (values : List ℚ) : List ℚ :=
  (List.range 99).map (fun k => quantRule values (k + 1))

/-- PerformanceMetrics._get_latency_percentiles: (p50, p95, p99).
Empty input gives zeros; a single sample is returned for all three;
otherwise percentile_list[49], [94], [98] of quantiles(values, n=100). -/
def getLatencyPercentiles (values : List ℚ) : ℚ × ℚ × ℚ :=
  if values.isEmpty then (0, 0, 0)
  else if values.length = 1 then
    (values.headD 0, values.headD 0, values.headD 0)
  else
    let ps := quantilesExc values
    (ps.getD 49 0, ps.getD 94 0, ps.getD 98 0)

/-! ### Helper lemmas about the pruning primitives -/

theorem pruneLen_eq_drop_aux :
    ∀ (n : Nat) (dq : List MSample), dq.length ≤ n →
      pruneLen dq = dq.drop (dq.length - maxSamplesPerRoute) := by
  intro n
  induction n with
  | zero =>
      intro dq h
      have hdq : dq = [] := List.eq_nil_of_length_eq_zero (by omega)
      subst hdq
      rw [pruneLen]
      simp [maxSamplesPerRoute]
  | succ m ih =>
      intro dq h
      by_cases hlen : maxSamplesPerRoute < dq.length
      · rw [pruneLen]
        rw [if_pos hlen, ih (dq.drop 1) (by simp; omega), List.drop_drop]
        congr 1
        simp
        omega
      · rw [pruneLen, if_neg hlen,
          Nat.sub_eq_zero_of_le (by omega), List.drop_zero]

theorem pruneLen_eq_drop (dq : List MSample) :
    pruneLen dq = dq.drop (dq.length - maxSamplesPerRoute) :=
  pruneLen_eq_drop_aux dq.length dq le_rfl

theorem pruneLen_length_le (dq : List MSample) :
    (pruneLen dq).length ≤ maxSamplesPerRoute := by
  rw [pruneLen_eq_drop, List.length_drop]
  omega

theorem pruneLen_subset (dq : List MSample) :
    ∀ s ∈ pruneLen dq, s ∈ dq := by
  rw [pruneLen_eq_drop]
  exact fun s hs => List.drop_subset _ _ hs

theorem pruneAge_of_head (cutoff : ℚ) (dq : List MSample)
    (h : ∀ x ∈ dq.head?, ¬ x.1 < cutoff) : pruneAge cutoff dq = dq := by
  cases dq with
  | nil => rfl
  | cons a l =>
      rw [pruneAge, if_neg (h a (by simp))]

theorem pruneAge_sorted_bound (cutoff : ℚ) :
    ∀ dq : List MSample, List.Pairwise (fun a b => a.1 ≤ b.1) dq →
      ∀ s ∈ pruneAge cutoff dq, cutoff ≤ s.1 := by
  intro dq
  induction dq with
  | nil => intro _ s hs; simp [pruneAge] at hs
  | cons a l ih =>
      intro hp s hs
      rw [pruneAge] at hs
      by_cases ha : a.1 < cutoff
      · rw [if_pos ha] at hs
        exact ih (List.Pairwise.of_cons hp) s hs
      · rw [if_neg ha] at hs
        rcases List.mem_cons.mp hs with h1 | h2
        · subst h1; exact le_of_not_lt ha
        · exact le_trans (le_of_not_lt ha) ((List.pairwise_cons.mp hp).1 s h2)

theorem pruneAge_subset (cutoff : ℚ) :
    ∀ dq : List MSample, ∀ s ∈ pruneAge cutoff dq, s ∈ dq := by
  intro dq
  induction dq with
  | nil => intro s hs; simp [pruneAge] at hs
  | cons a l ih =>
      intro s hs
      rw [pruneAge] at hs
      by_cases ha : a.1 < cutoff
      · rw [if_pos ha] at hs
        exact List.mem_cons_of_mem a (ih s hs)
      · rw [if_neg ha] at hs
        exact hs

theorem getRoute_setRoute (k : String) (dq : List MSample) :
    ∀ rs, getRoute (setRoute rs k dq) k = dq := by
  intro rs
  induction rs with
  | nil => simp [setRoute, getRoute, List.lookup]
  | cons p rest ih =>
      obtain ⟨a, b⟩ := p
      by_cases hp : a = k
      · subst hp
        simp [setRoute, getRoute, List.lookup]
      · have hbeq : (k == a) = false :=
          beq_eq_false_iff_ne.mpr (Ne.symm hp)
        rw [setRoute]
        simp only [if_neg hp]
        simp only [getRoute, List.lookup, hbeq]
        exact ih


theorem drop_norm (q ss : List MSample) (n : Nat) :
    ((q.drop (q.length - n)) ++ ss).drop
        ((q.drop (q.length - n)).length + ss.length - n)
      = (q ++ ss).drop (q.length + ss.length - n) := by
  rw [List.drop_append_eq_append_drop, List.drop_append_eq_append_drop,
    List.drop_drop, List.length_drop]
  have e1 : q.length - n + (q.length - (q.length - n) + ss.length - n)
      = q.length + ss.length - n := by omega
  have e2 : q.length - (q.length - n) + ss.length - n
        - (q.length - (q.length - n))
      = q.length + ss.length - n - q.length := by omega
  rw [e1, e2]

theorem stepDq_const_time (t0 : ℚ) (dq : List MSample) (s : MSample)
    (hs : s.1 = t0) (hdq : ∀ x ∈ dq, x.1 = t0) :
    stepDq dq s = (dq ++ [s]).drop (dq.length + 1 - maxSamplesPerRoute) := by
  have hhead : ∀ x ∈ (dq ++ [s]).head?, ¬ x.1 < s.1 - maxWindowSeconds := by
    intro x hx
    have hx1 : x.1 = t0 := by
      cases dq with
      | nil =>
          simp at hx
          subst hx
          exact hs
      | cons a l =>
          simp at hx
          subst hx
          exact hdq a (by simp)
    rw [hx1, hs]
    have h36 : (0 : ℚ) ≤ maxWindowSeconds := by norm_num [maxWindowSeconds]
    intro hcon
    linarith
  rw [stepDq, pruneDeque, pruneAge_of_head _ _ hhead, pruneLen_eq_drop]
  simp

theorem foldStep_const_time (t0 : ℚ) :
    ∀ (samples dq : List MSample), (∀ x ∈ samples, x.1 = t0) →
      (∀ x ∈ dq, x.1 = t0) → dq.length ≤ maxSamplesPerRoute →
      samples.foldl stepDq dq =
        (dq ++ samples).drop
          (dq.length + samples.length - maxSamplesPerRoute) := by
  intro samples
  induction samples with
  | nil =>
      intro dq _ _ hlen
      simp
      rw [Nat.sub_eq_zero_of_le hlen, List.drop_zero]
  | cons s ss ih =>
      intro dq hts hdq hlen
      rw [List.foldl_cons]
      rw [stepDq_const_time t0 dq s (hts s (by simp)) hdq]
      rw [ih _ (fun y hy => hts y (by simp [hy]))
        (fun y hy => by
          have hmem := List.drop_subset _ _ hy
          rcases List.mem_append.mp hmem with h1 | h2
          · exact hdq y h1
          · simp at h2
            subst h2
            exact hts y (by simp))
        (by
          simp only [List.length_drop, List.length_append, List.length_cons,
            List.length_nil]
          omega)]
      rw [List.length_drop]
      have heq := drop_norm (dq ++ [s]) ss maxSamplesPerRoute
      rw [List.length_drop] at heq
      simp only [List.length_append, List.length_cons, List.length_nil,
        List.append_assoc, List.cons_append, List.nil_append, Nat.zero_add]
        at heq ⊢
      have e3 : dq.length + 1 + ss.length - maxSamplesPerRoute
          = dq.length + (ss.length + 1) - maxSamplesPerRoute := by omega
      rw [e3] at heq
      exact heq


theorem recordEndpointLatency_global (st : MetricsState) (rk : String)
    (now : ℚ) (sid : Nat) :
    (recordEndpointLatency st rk now sid).globalSamples =
      stepDq st.globalSamples (now, sid) := rfl

theorem recordEndpointLatency_route (st : MetricsState) (rk : String)
    (now : ℚ) (sid : Nat) :
    getRoute (recordEndpointLatency st rk now sid).routeSamples rk =
      stepDq (getRoute st.routeSamples rk) (now, sid) := by
  simp [recordEndpointLatency, getRoute_setRoute, stepDq]

theorem recordMany_global (rk : String) :
    ∀ (samples : List MSample) (st : MetricsState),
      (recordMany st rk samples).globalSamples =
        samples.foldl stepDq st.globalSamples := by
  intro samples
  induction samples with
  | nil => intro st; rfl
  | cons s ss ih =>
      intro st
      rw [recordMany, List.foldl_cons, List.foldl_cons]
      rw [show List.foldl (fun acc t => recordEndpointLatency acc rk t.1 t.2)
          (recordEndpointLatency st rk s.1 s.2) ss
          = recordMany (recordEndpointLatency st rk s.1 s.2) rk ss from rfl]
      rw [ih]
      rw [recordEndpointLatency_global]

theorem recordMany_route (rk : String) :
    ∀ (samples : List MSample) (st : MetricsState),
      getRoute (recordMany st rk samples).routeSamples rk =
        samples.foldl stepDq (getRoute st.routeSamples rk) := by
  intro samples
  induction samples with
  | nil => intro st; rfl
  | cons s ss ih =>
      intro st
      rw [recordMany, List.foldl_cons, List.foldl_cons]
      rw [show List.foldl (fun acc t => recordEndpointLatency acc rk t.1 t.2)
          (recordEndpointLatency st rk s.1 s.2) ss
          = recordMany (recordEndpointLatency st rk s.1 s.2) rk ss from rfl]
      rw [ih]
      rw [recordEndpointLatency_route]

/-- C5: after every record_endpoint_latency call, the per-route deque and
the global deque each hold at most MAX_SAMPLES_PER_ROUTE = 500 samples
and (for deques whose timestamps were appended in nondecreasing order) no
sample older than MAX_WINDOW_SECONDS = 3600 seconds, oldest evicted
first; and inserting any burst of same-timestamp samples (such as 10,000)
into the empty recorder retains exactly the most recent 500, the oldest
discarded first. -/
theorem rolling_deques_bounded_and_last500 :
    (∀ (st : MetricsState) (rk : String) (now : ℚ) (sid : Nat),
      (getRoute (recordEndpointLatency st rk now sid).routeSamples rk).length
          ≤ maxSamplesPerRoute ∧
      ((recordEndpointLatency st rk now sid).globalSamples).length
          ≤ maxSamplesPerRoute)
    ∧ (∀ (st : MetricsState) (rk : String) (now : ℚ) (sid : Nat),
        List.Pairwise (fun a b => a.1 ≤ b.1)
          (getRoute st.routeSamples rk ++ [(now, sid)]) →
        ∀ s ∈ getRoute (recordEndpointLatency st rk now sid).routeSamples rk,
          now - maxWindowSeconds ≤ s.1)
    ∧ (∀ (st : MetricsState) (rk : String) (now : ℚ) (sid : Nat),
        List.Pairwise (fun a b => a.1 ≤ b.1)
          (st.globalSamples ++ [(now, sid)]) →
        ∀ s ∈ (recordEndpointLatency st rk now sid).globalSamples,
          now - maxWindowSeconds ≤ s.1)
    ∧ (∀ (t0 : ℚ) (rk : String) (samples : List MSample),
        (∀ x ∈ samples, x.1 = t0) →
        (recordMany ⟨[], []⟩ rk samples).globalSamples
            = samples.drop (samples.length - maxSamplesPerRoute)
          ∧ getRoute (recordMany ⟨[], []⟩ rk samples).routeSamples rk
            = samples.drop (samples.length - maxSamplesPerRoute)) := by
  refine ⟨?_, ?_, ?_, ?_⟩
  · intro st rk now sid
    rw [recordEndpointLatency_route, recordEndpointLatency_global]
    exact ⟨pruneLen_length_le _, pruneLen_length_le _⟩
  · intro st rk now sid hp s hs
    rw [recordEndpointLatency_route] at hs
    exact pruneAge_sorted_bound _ _ hp s (pruneLen_subset _ s hs)
  · intro st rk now sid hp s hs
    rw [recordEndpointLatency_global] at hs
    exact pruneAge_sorted_bound _ _ hp s (pruneLen_subset _ s hs)
  · intro t0 rk samples hts
    constructor
    · rw [recordMany_global]
      have := foldStep_const_time t0 samples [] hts (by simp) (by simp)
      simpa using this
    · rw [recordMany_route]
      have := foldStep_const_time t0 samples [] hts (by simp) (by simp)
      simpa [getRoute] using this


/-- C6: the percentile computation returns (0, 0, 0) for no samples,
(v, v, v) for the single sample v (for example 42), and for two or more
samples applies the one exclusive-interpolation rule of
statistics.quantiles(values, n=100) uniformly to cut points 50, 95 and
99; on [10, 20, 30, 40, 100] the reproducible result is p50 = 30,
p95 = 142, p99 = 156.4. -/
theorem percentiles_cases :
    getLatencyPercentiles [] = (0, 0, 0)
    ∧ (∀ v : ℚ, getLatencyPercentiles [v] = (v, v, v))
    ∧ getLatencyPercentiles [42] = (42, 42, 42)
    ∧ (∀ values : List ℚ, 2 ≤ values.length →
        getLatencyPercentiles values =
          (quantRule values 50, quantRule values 95, quantRule values 99))
    ∧ getLatencyPercentiles [10, 20, 30, 40, 100] = (30, 142, 782 / 5) := by
  refine ⟨rfl, ?_, ?_, ?_, ?_⟩
  · intro v
    simp [getLatencyPercentiles]
  · simp [getLatencyPercentiles]
  · intro values hlen
    rw [getLatencyPercentiles]
    rw [if_neg (by cases values <;> simp_all), if_neg (by omega)]
    simp only [quantilesExc]
    refine Prod.ext ?_ (Prod.ext ?_ ?_)
    all_goals
      simp [List.getD_eq_getElem?_getD, List.getElem?_map, List.getElem?_range]
  · norm_num [getLatencyPercentiles, quantilesExc, quantRule, List.mergeSort]

theorem percentiles_cases_witness :
    getLatencyPercentiles [10, 20] =
      (quantRule [10, 20] 50, quantRule [10, 20] 95, quantRule [10, 20] 99) :=
  percentiles_cases.2.2.2.1 [10, 20] (by simp)


/-- C4: with max_requests = 5 and window_seconds = 10, six consecutive
calls within the window give allowed with remaining 4, 3, 2, 1, 0 and then
a denial with remaining 0 and reset_in > 0; in general, on allow remaining
equals max_requests - count - 1 for the surviving count before recording,
on deny remaining is 0, and reset_in is 0 exactly when the purged window
is empty and at least 1 otherwise. -/
theorem rate_limiter_window_fields :
    (runCalls 5 10 [] [0, 1, 2, 3, 4, 5]).1 =
      [⟨true, 4, 0⟩, ⟨true, 3, 9⟩, ⟨true, 2, 8⟩, ⟨true, 1, 7⟩,
       ⟨true, 0, 6⟩, ⟨false, 0, 5⟩]
    ∧ ∀ (maxR : Nat) (w : ℚ) (reqs : List ℚ) (now : ℚ),
      ((purgeWindow (now - w) reqs).length < maxR →
        (isAllowed maxR w reqs now).1.allowed = true ∧
        ((isAllowed maxR w reqs now).1.remaining : ℤ) =
          (maxR : ℤ) - (purgeWindow (now - w) reqs).length - 1)
      ∧ (maxR ≤ (purgeWindow (now - w) reqs).length →
        (isAllowed maxR w reqs now).1.allowed = false ∧
        (isAllowed maxR w reqs now).1.remaining = 0)
      ∧ (purgeWindow (now - w) reqs = [] →
        (isAllowed maxR w reqs now).1.resetIn = 0)
      ∧ (purgeWindow (now - w) reqs ≠ [] →
        1 ≤ (isAllowed maxR w reqs now).1.resetIn) := by
  constructor
  · simp [runCalls, isAllowed, purgeWindow]
    norm_num [listMin]
    decide
  · intro maxR w reqs now
    refine ⟨?_, ?_, ?_, ?_⟩
    · intro h
      simp only [isAllowed]
      rw [if_pos h]
      refine ⟨rfl, ?_⟩
      simp only
      rw [Int.toNat_of_nonneg (by omega)]
    · intro h
      simp only [isAllowed]
      rw [if_neg (by omega)]
      exact ⟨rfl, rfl⟩
    · intro h
      simp only [isAllowed]
      split <;> simp [h]
    · intro h
      simp only [isAllowed]
      split <;> simp [h]

theorem rate_limiter_window_fields_witness :
    ((isAllowed 5 10 [5] 10).1.allowed = true ∧
      ((isAllowed 5 10 [5] 10).1.remaining : ℤ) =
        (5 : ℤ) - (purgeWindow (10 - 10) [5]).length - 1)
    ∧ ((isAllowed 1 10 [5] 10).1.allowed = false ∧
      (isAllowed 1 10 [5] 10).1.remaining = 0)
    ∧ (isAllowed 5 10 [] 10).1.resetIn = 0
    ∧ 1 ≤ (isAllowed 1 10 [5] 10).1.resetIn :=
  ⟨(rate_limiter_window_fields.2 5 10 [5] 10).1
      (by norm_num [purgeWindow]),
   (rate_limiter_window_fields.2 1 10 [5] 10).2.1
      (by norm_num [purgeWindow]),
   (rate_limiter_window_fields.2 5 10 [] 10).2.2.1
      (by norm_num [purgeWindow]),
   (rate_limiter_window_fields.2 1 10 [5] 10).2.2.2
      (by norm_num [purgeWindow])⟩

/-- C9: a denied is_allowed call records nothing: when the surviving count
has reached max_requests, the stored timestamp list afterwards is exactly
the purge of the old list, so denials never extend the denial period. -/
theorem denied_call_records_nothing (maxR : Nat) (w : ℚ) (reqs : List ℚ)
    (now : ℚ) (h : maxR ≤ (purgeWindow (now - w) reqs).length) :
    (isAllowed maxR w reqs now).2 = purgeWindow (now - w) reqs ∧
    (isAllowed maxR w reqs now).1.allowed = false := by
  simp only [isAllowed]
  rw [if_neg (by omega)]
  exact ⟨rfl, rfl⟩

theorem denied_call_records_nothing_witness :
    (isAllowed 1 10 [5] 10).2 = purgeWindow (10 - 10) [5] ∧
    (isAllowed 1 10 [5] 10).1.allowed = false :=
  denied_call_records_nothing 1 10 [5] 10 (by norm_num [purgeWindow])

def manySamples : List MSample :=
  (List.range 10000).map (fun i => ((7 : ℚ), i))

/-! ## Ratings write path (cache_manager.py, backend/services/ratings_service.py,
backend/app/core/db.py, database_migration.py) -/

/-- Insertion-ordered dict assignment m[k] = v: replace the value of an
existing key in place, append a missing key at the end. -/
def setAssoc (m : List (String × Int)) (k : String) (v : Int) :
    List (String × Int) :=
  match m with
  | [] => [(k, v)]
  | p :: rest => if p.1 = k then (k, v) :: rest else p :: setAssoc rest k v

/-- The state VideoCache.update_rating touches: the in-memory _ratings dict
and the ratings table of the durable backend. -/
structure VCState where
  ratings : List (String × Int)
  backendRatings : List (String × Int)
  deriving Repr, DecidableEq

/-- VideoCache.update_rating (cache_manager.py lines 363-374): first
patches the cached _ratings dict in place, then calls
db.update_rating.  backendOk models whether the backend write raises; when
it raises, the exception propagates (returned flag false) and the method
performs no further state change, so the cache keeps the patched value.
No rating-range validation is performed. -/
def vcUpdateRating (st : VCState) (f : String) (v : Int) (backendOk : Bool) :
    VCState × Bool :=
  let st1 : VCState := { st with ratings := setAssoc st.ratings f v }
  if backendOk then
    ({ st1 with backendRatings := setAssoc st1.backendRatings f v }, true)
  else (st1, false)

/-- The SQLite CHECK constraint on the ratings table
(database_migration.py line 48): rating >= 1 AND rating <= 5. -/
def ratingsCheck (v : Int) : Bool :=
  decide (1 ≤ v) && decide (v ≤ 5)

/-- RatingsService.validate_rating for an integer input: (is_valid,
error message). -/
def validateRating (v : Int) : Bool × Option String :=
  if v < 1 ∨ 5 < v then (false, some "Rating must be between 1 and 5")
  else (true, none)

/-- TTL of the general cache categories (VideoCache.cache_ttl default). -/
def cacheTtl : ℚ := 300

/-- Rating summary produced by RatingsService.get_rating_summary from the
ratings dict: a present, truthy (non-zero) rating yields (value, 1,
some value); otherwise zeros.  Python `if user_rating:` treats a stored 0
as missing. -/
structure RatingSummary where
  average : ℚ
  count : Nat
  user : Option Int
  deriving Repr, DecidableEq

def ratingSummary (ratings : List (String × Int)) (f : String) :
    RatingSummary :=
  match ratings.lookup f with
  | some r => if r = 0 then ⟨0, 0, none⟩ else ⟨(r : ℚ), 1, some r⟩
  | none => ⟨0, 0, none⟩

/-- The state RatingsService.set_rating touches: the cached _ratings dict,
its last_refresh stamp and the backend ratings table. -/
structure SvcState where
  cacheRatings : List (String × Int)
  lastRefresh : ℚ
  backendRatings : List (String × Int)
  deriving Repr, DecidableEq

/-- Errors raised by RatingsService.set_rating. -/
inductive SetRatingErr
  | valueError
  | fileNotFound
  deriving Repr, DecidableEq

/-- VideoCache.get_ratings within set_rating: if the entry is stale
(now - last_refresh >= cache_ttl), reload from the backend and stamp
last_refresh; return (value read, new cache dict, new last_refresh). -/
def getRatingsAt (cacheRatings : List (String × Int)) (lastRefresh : ℚ)
    (backend : List (String × Int)) (now : ℚ) :
    List (String × Int) × List (String × Int) × ℚ :=
  if now - lastRefresh < cacheTtl then (cacheRatings, cacheRatings, lastRefresh)
  else (backend, backend, now)

/-- RatingsService.set_rating (ratings_service.py lines 100-144): reject a
value outside [1,5] with ValueError; reject a missing file with
FileNotFoundError; write the backend (a failure is caught and only
logged); invalidate the ratings cache (clear dict, last_refresh = 0); then
return a fresh summary via get_rating_summary, whose get_ratings call
reloads at time now. -/
def setRating (st : SvcState) (f : String) (v : Int)
    (fileExists backendOk : Bool) (now : ℚ) :
    Except SetRatingErr (RatingSummary × SvcState) :=
  if v < 1 ∨ 5 < v then .error .valueError
  else if ¬ fileExists then .error .fileNotFound
  else
    let backend1 := if backendOk then setAssoc st.backendRatings f v
      else st.backendRatings
    let afterInvalidate : List (String × Int) := []
    let read := getRatingsAt afterInvalidate 0 backend1 now
    .ok (ratingSummary read.1 f, ⟨read.2.1, read.2.2, backend1⟩)

/-! ### Retry helper and the actual durable write (C2) -/

/-- Result of one attempt of the relational backend. -/
inductive DbResult
  | success
  | lockedErr
  | otherErr
  deriving Repr, DecidableEq

/-- Outcome of a write-path call: how it returned and how many attempts it
made. -/
inductive WriteOutcome
  | ok (attempts : Nat)
  | raisedLocked (attempts : Nat)
  | raisedOther (attempts : Nat)
  | raisedRuntime
  deriving Repr, DecidableEq

/-- Loop body of DatabaseSession.execute_with_retry (db.py lines 63-80):
for attempt in range(maxRetries): run the query; on success return; on
"database is locked" remember the error, sleep 0.1 * 2^attempt and
continue; on any other error re-raise.  After the loop, re-raise the last
lock error, or a RuntimeError if there was none.  Returns the outcome and
the list of backoff sleeps performed. -/
def executeWithRetryAux (behavior : Nat → DbResult) (maxRetries : Nat) :
    Nat → Bool → List ℚ → WriteOutcome × List ℚ
  | attempt, hasLast, waits =>
    if _h : attempt < maxRetries then
      match behavior attempt with
      | .success => (.ok (attempt + 1), waits)
      | .lockedErr =>
          executeWithRetryAux behavior maxRetries (attempt + 1) true
            (waits ++ [(1 / 10) * 2 ^ attempt])
      | .otherErr => (.raisedOther (attempt + 1), waits)
    else if hasLast then (.raisedLocked attempt, waits)
    else (.raisedRuntime, waits)
  termination_by attempt _ _ => maxRetries - attempt
  decreasing_by omega

/-- DatabaseSession.execute_with_retry with its default max_retries = 3. -/
def executeWithRetry (behavior : Nat → DbResult) (maxRetries : Nat := 3) :
    WriteOutcome × List ℚ :=
  executeWithRetryAux behavior maxRetries 0 false []

/-- VideoDatabase.update_rating (database_migration.py lines 293-303): a
single connection, two executes and a commit, with no retry logic of any
kind: the first backend error propagates to the caller. -/
def dbUpdateRating (behavior : Nat → DbResult) : WriteOutcome :=
  match behavior 0 with
  | .success => .ok 1
  | .lockedErr => .raisedLocked 1
  | .otherErr => .raisedOther 1

/-- A backend that is locked on the first attempt and would succeed on the
second. -/
def lockedOnce : Nat → DbResult :=
  fun i => if i = 0 then .lockedErr else .success

theorem rolling_deques_witness :
    (∀ s ∈ getRoute
        (recordEndpointLatency ⟨[], []⟩ "GET /api/videos" 0 0).routeSamples
        "GET /api/videos",
      (0 : ℚ) - maxWindowSeconds ≤ s.1)
    ∧ ((recordMany ⟨[], []⟩ "GET /api/videos" manySamples).globalSamples
        = manySamples.drop (manySamples.length - maxSamplesPerRoute)) :=
  ⟨rolling_deques_bounded_and_last500.2.1 ⟨[], []⟩ "GET /api/videos" 0 0
      (by simp [getRoute]),
   (rolling_deques_bounded_and_last500.2.2.2 7 "GET /api/videos" manySamples
      (by
        intro x hx
        simp [manySamples] at hx
        obtain ⟨i, _, hi⟩ := hx
        rw [← hi])).1⟩


theorem lookup_setAssoc (k : String) (v : Int) :
    ∀ m : List (String × Int), (setAssoc m k v).lookup k = some v := by
  intro m
  induction m with
  | nil => simp [setAssoc, List.lookup]
  | cons p rest ih =>
      obtain ⟨a, b⟩ := p
      by_cases hp : a = k
      · subst hp
        simp [setAssoc, List.lookup]
      · have hbeq : (k == a) = false :=
          beq_eq_false_iff_ne.mpr (Ne.symm hp)
        rw [setAssoc]
        simp only [if_neg hp]
        simp only [List.lookup, hbeq]
        exact ih

/-- C1 counterexample: a rating write against a failing backend leaves the
cached ratings dict changed (it already holds the new value 5) while the
backend still holds the old value 2, and the cached entry was patched, not
invalidated: the partial-success state the claim rules out. -/
theorem write_through_counterexample :
    (vcUpdateRating ⟨[("a", 2)], [("a", 2)]⟩ "a" 5 false).1.ratings
        ≠ [("a", 2)]
    ∧ (vcUpdateRating ⟨[("a", 2)], [("a", 2)]⟩ "a" 5 false).2 = false
    ∧ ((vcUpdateRating ⟨[("a", 2)], [("a", 2)]⟩ "a" 5 false).1.ratings).lookup "a"
        = some 5
    ∧ ((vcUpdateRating ⟨[("a", 2)], [("a", 2)]⟩ "a" 5
          false).1.backendRatings).lookup "a" = some 2 := by
  refine ⟨?_, rfl, ?_, ?_⟩ <;> decide

/-- C1 amended: VideoCache.update_rating patches the cached entry in place
before the durable write and, when the backend write raises, propagates
the exception with the cache still holding the uncommitted value;
RatingsService.set_rating writes the backend first and invalidates the
cache, but swallows a backend failure: it returns a summary reloaded from
the backend instead of raising a structured error. -/
theorem write_path_actual_behavior :
    (∀ (st : VCState) (f : String) (v : Int),
      (vcUpdateRating st f v false).1.ratings = setAssoc st.ratings f v ∧
      (vcUpdateRating st f v false).1.backendRatings = st.backendRatings ∧
      (vcUpdateRating st f v false).2 = false)
    ∧ (∀ (st : VCState) (f : String) (v : Int),
      (vcUpdateRating st f v true).1 =
        ⟨setAssoc st.ratings f v, setAssoc st.backendRatings f v⟩)
    ∧ (∀ (st : SvcState) (f : String) (v : Int) (now : ℚ),
      1 ≤ v → v ≤ 5 → cacheTtl ≤ now →
      setRating st f v true false now =
        .ok (ratingSummary st.backendRatings f,
          ⟨st.backendRatings, now, st.backendRatings⟩)) := by
  refine ⟨?_, ?_, ?_⟩
  · intro st f v
    exact ⟨rfl, rfl, rfl⟩
  · intro st f v
    rfl
  · intro st f v now h1 h5 hnow
    rw [setRating]
    rw [if_neg (by omega)]
    have hcond : ¬ (now < cacheTtl) := by linarith
    simp [getRatingsAt, hcond]

theorem write_path_actual_behavior_witness :
    setRating ⟨[("a", 2)], 50, [("a", 2)]⟩ "a" 3 true false 1000 =
      .ok (ratingSummary [("a", 2)] "a", ⟨[("a", 2)], 1000, [("a", 2)]⟩) :=
  write_path_actual_behavior.2.2 ⟨[("a", 2)], 50, [("a", 2)]⟩ "a" 3 1000
    (by norm_num) (by norm_num) (by norm_num [cacheTtl])

/-- C2 counterexample: on a backend locked on the first attempt that would
succeed on the second, VideoDatabase.update_rating surfaces the lock error
after a single attempt instead of retrying, and RatingsService.set_rating
returns success despite the failed backend write. -/
theorem retry_counterexample :
    dbUpdateRating lockedOnce = .raisedLocked 1
    ∧ lockedOnce 1 = .success
    ∧ setRating ⟨[], 0, []⟩ "a" 3 true false 1000 =
        .ok (⟨0, 0, none⟩, ⟨[], 1000, []⟩) := by
  refine ⟨rfl, rfl, ?_⟩
  rw [setRating]
  rw [if_neg (by omega)]
  have hcond : ¬ ((1000 : ℚ) < cacheTtl) := by norm_num [cacheTtl]
  simp [getRatingsAt, hcond, ratingSummary, List.lookup]

/-- C2 amended: the helper DatabaseSession.execute_with_retry does retry
on "database is locked" with exponential backoff sleeps 0.1 * 2^attempt,
capped at 3 attempts, re-raising the lock error on exhaustion and passing
other errors through; but the rating write path makes a single attempt
with no retry: a lock error on attempt 0 is surfaced immediately. -/
theorem retry_helper_behavior :
    (∀ behavior : Nat → DbResult,
      (∀ i, i < 3 → behavior i = .lockedErr) →
        executeWithRetry behavior = (.raisedLocked 3, [1/10, 1/5, 2/5]))
    ∧ (∀ behavior : Nat → DbResult, behavior 0 = .lockedErr →
        behavior 1 = .success →
        executeWithRetry behavior = (.ok 2, [1/10]))
    ∧ (∀ behavior : Nat → DbResult, behavior 0 = .otherErr →
        executeWithRetry behavior = (.raisedOther 1, []))
    ∧ (∀ behavior : Nat → DbResult, behavior 0 = .lockedErr →
        dbUpdateRating behavior = .raisedLocked 1) := by
  refine ⟨?_, ?_, ?_, ?_⟩
  · intro behavior h
    rw [executeWithRetry, executeWithRetryAux]
    rw [dif_pos (by omega), h 0 (by omega)]
    rw [executeWithRetryAux, dif_pos (by omega), h 1 (by omega)]
    rw [executeWithRetryAux, dif_pos (by omega), h 2 (by omega)]
    rw [executeWithRetryAux, dif_neg (by omega), if_pos rfl]
    norm_num
  · intro behavior h0 h1
    rw [executeWithRetry, executeWithRetryAux]
    rw [dif_pos (by omega), h0]
    rw [executeWithRetryAux, dif_pos (by omega), h1]
    norm_num
  · intro behavior h0
    rw [executeWithRetry, executeWithRetryAux]
    rw [dif_pos (by omega), h0]
  · intro behavior h0
    rw [dbUpdateRating, h0]

theorem retry_helper_behavior_witness :
    executeWithRetry (fun _ => DbResult.lockedErr) =
      (.raisedLocked 3, [1/10, 1/5, 2/5])
    ∧ executeWithRetry lockedOnce = (.ok 2, [1/10])
    ∧ executeWithRetry (fun _ => DbResult.otherErr) = (.raisedOther 1, [])
    ∧ dbUpdateRating lockedOnce = .raisedLocked 1 :=
  ⟨retry_helper_behavior.1 (fun _ => .lockedErr) (fun _ _ => rfl),
   retry_helper_behavior.2.1 lockedOnce rfl rfl,
   retry_helper_behavior.2.2.1 (fun _ => .otherErr) rfl,
   retry_helper_behavior.2.2.2 lockedOnce rfl⟩

/-- C10: VideoCache.update_rating performs no range validation: any
integer, including 0 and 6, is stored in the cached ratings dict whether
or not the backend accepts the write; the [1, 5] range check lives only in
RatingsService (set_rating raises ValueError, validate_rating reports
invalid) and in the ratings table CHECK constraint. -/
theorem cache_stores_any_rating :
    (∀ (st : VCState) (f : String) (v : Int) (backendOk : Bool),
      ((vcUpdateRating st f v backendOk).1.ratings).lookup f = some v)
    ∧ validateRating 0 = (false, some "Rating must be between 1 and 5")
    ∧ validateRating 6 = (false, some "Rating must be between 1 and 5")
    ∧ (∀ v : Int, 1 ≤ v → v ≤ 5 → validateRating v = (true, none))
    ∧ ratingsCheck 0 = false
    ∧ ratingsCheck 6 = false
    ∧ (∀ v : Int, 1 ≤ v → v ≤ 5 → ratingsCheck v = true)
    ∧ (∀ (v : Int), (v < 1 ∨ 5 < v) →
        ∀ (st : SvcState) (f : String) (fe bo : Bool) (now : ℚ),
          setRating st f v fe bo now = .error .valueError) := by
  refine ⟨?_, ?_, ?_, ?_, rfl, rfl, ?_, ?_⟩
  · intro st f v backendOk
    rw [vcUpdateRating]
    split
    · exact lookup_setAssoc f v st.ratings
    · exact lookup_setAssoc f v st.ratings
  · rw [validateRating, if_pos (by omega)]
  · rw [validateRating, if_pos (by omega)]
  · intro v h1 h5
    rw [validateRating, if_neg (by omega)]
  · intro v h1 h5
    rw [ratingsCheck]
    simp
    omega
  · intro v hv st f fe bo now
    rw [setRating, if_pos hv]

theorem cache_stores_any_rating_witness :
    ((vcUpdateRating ⟨[], []⟩ "a" 6 false).1.ratings).lookup "a" = some 6
    ∧ validateRating 3 = (true, none)
    ∧ ratingsCheck 3 = true
    ∧ setRating ⟨[], 0, []⟩ "a" 6 true true 1000 = .error .valueError :=
  ⟨cache_stores_any_rating.1 ⟨[], []⟩ "a" 6 false,
   cache_stores_any_rating.2.2.2.1 3 (by norm_num) (by norm_num),
   cache_stores_any_rating.2.2.2.2.2.2.1 3 (by norm_num) (by norm_num),
   cache_stores_any_rating.2.2.2.2.2.2.2 6 (by norm_num) ⟨[], 0, []⟩ "a"
     true true 1000⟩


/-! ## Tags cache and shallow copies (cache_manager.py get_tags) -/

/-- Heap of Python list objects: list id -> current contents.  Needed to
express aliasing: dict.copy() copies the top-level dict but shares the
nested list objects. -/
abbrev TagHeap := List (Nat × List String)

/-- Dereference a list id (missing ids give []). -/
def heapGet (h : TagHeap) (i : Nat) : List String := (h.lookup i).getD []

/-- In-place mutation of the list object with id i. -/
def heapSet : TagHeap → Nat → List String → TagHeap
  | [], i, v => [(i, v)]
  | p :: rest, i, v => if p.1 = i then (i, v) :: rest else p :: heapSet rest i v

/-- The _tags cache entry: dict from filename to the id of its tag list,
plus the last_refresh stamp. -/
structure TagsCacheState where
  tags : List (String × Nat)
  lastRefresh : ℚ
  deriving Repr, DecidableEq

/-- VideoCache.get_tags (cache_manager.py lines 187-208): when the entry
is fresh (now - last_refresh < cache_ttl) return self._tags.copy(), a new
top-level dict holding the same nested list references; when stale, reload
the dict from the backend and stamp last_refresh.  Returns the dict handed
to the caller and the state afterwards. -/
def getTags (st : TagsCacheState) (backendTags : List (String × Nat))
    (now : ℚ) : (List (String × Nat)) × TagsCacheState :=
  if now - st.lastRefresh < cacheTtl then (st.tags, st)
  else (backendTags, ⟨backendTags, now⟩)

/-- Caller-visible content of a tags dict: resolve every nested list
reference through the heap. -/
def viewTags (h : TagHeap) (d : List (String × Nat)) :
    List (String × List String) :=
  d.map (fun p => (p.1, heapGet h p.2))

/-- Mutating a nested structure reached through a returned copy:
returned[f].append(t) mutates the shared list object on the heap. -/
def appendTagThroughCopy (h : TagHeap) (copy : List (String × Nat))
    (f : String) (t : String) : TagHeap :=
  match copy.lookup f with
  | some i => heapSet h i (heapGet h i ++ [t])
  | none => h

/-- C3 counterexample: get_tags returns a shallow copy, so appending to a
nested tag list through the returned dict mutates the cached value: the
cached view changes from [("f", ["a"])] to [("f", ["a", "x"])]. -/
theorem defensive_copy_counterexample :
    (getTags ⟨[("f", 0)], 100⟩ [] 100).1 = [("f", 0)]
    ∧ viewTags [(0, ["a"])] ((getTags ⟨[("f", 0)], 100⟩ [] 100).2).tags
        = [("f", ["a"])]
    ∧ viewTags
        (appendTagThroughCopy [(0, ["a"])]
          (getTags ⟨[("f", 0)], 100⟩ [] 100).1 "f" "x")
        ((getTags ⟨[("f", 0)], 100⟩ [] 100).2).tags
        = [("f", ["a", "x"])]
    ∧ ([("f", ["a", "x"])] : List (String × List String)) ≠ [("f", ["a"])] := by
  have hfresh : ((0 : ℚ) < cacheTtl) := by norm_num [cacheTtl]
  refine ⟨?_, ?_, ?_, by decide⟩ <;>
    simp [getTags, hfresh, viewTags, appendTagThroughCopy, heapGet, heapSet,
      List.lookup]

/-- C3 amended: a fresh read returns a new top-level dict that shares the
nested list objects (a shallow copy), so nested mutation through the copy
reaches the cache, while two reads within the TTL with no intervening
write still return content-identical values. -/
theorem shallow_copy_semantics :
    (∀ (st : TagsCacheState) (backend : List (String × Nat)) (t1 t2 : ℚ),
      t2 - ((getTags st backend t1).2).lastRefresh < cacheTtl →
      (getTags ((getTags st backend t1).2) backend t2).1
        = (getTags st backend t1).1)
    ∧ (∀ (h : TagHeap) (st : TagsCacheState) (backend : List (String × Nat))
        (now : ℚ),
      now - st.lastRefresh < cacheTtl →
      (getTags st backend now).1 = st.tags ∧
      viewTags h (getTags st backend now).1 = viewTags h st.tags) := by
  constructor
  · intro st backend t1 t2 h2
    by_cases h1 : t1 - st.lastRefresh < cacheTtl
    · have hfst : getTags st backend t1 = (st.tags, st) := by
        rw [getTags, if_pos h1]
      rw [hfst] at h2 ⊢
      have h2a : t2 - st.lastRefresh < cacheTtl := h2
      rw [getTags, if_pos h2a]
    · have hfst : getTags st backend t1 = (backend, ⟨backend, t1⟩) := by
        rw [getTags, if_neg h1]
      rw [hfst] at h2 ⊢
      have h2a : t2 - (⟨backend, t1⟩ : TagsCacheState).lastRefresh < cacheTtl :=
        h2
      rw [getTags, if_pos h2a]
  · intro h st backend now hv
    rw [getTags, if_pos hv]
    exact ⟨rfl, rfl⟩

theorem shallow_copy_semantics_witness :
    (getTags ((getTags (⟨[("f", 0)], 100⟩ : TagsCacheState) [] 120).2) []
          150).1
        = (getTags (⟨[("f", 0)], 100⟩ : TagsCacheState) [] 120).1
    ∧ (getTags (⟨[("f", 0)], 100⟩ : TagsCacheState) [] 120).1 = [("f", 0)] := by
  have h1 := shallow_copy_semantics.1 ⟨[("f", 0)], 100⟩ [] 120 150
  have h2 := shallow_copy_semantics.2 [] ⟨[("f", 0)], 100⟩ [] 120
  have hv : ((120 : ℚ) - 100 < cacheTtl) := by norm_num [cacheTtl]
  have hmid : (getTags (⟨[("f", 0)], 100⟩ : TagsCacheState) [] 120).2
      = ⟨[("f", 0)], 100⟩ := by
    rw [getTags, if_pos hv]
  refine ⟨?_, (h2 hv).1⟩
  have hv2 : (150 : ℚ) -
      ((getTags (⟨[("f", 0)], 100⟩ : TagsCacheState) [] 120).2).lastRefresh
      < cacheTtl := by
    rw [hmid]
    norm_num [cacheTtl]
  exact h1 hv2



/-! ## Related-item scorer (cache_manager.py get_related_videos_optimized,
fallback branch) -/

/-- The metadata fields the fallback scorer reads for a candidate
(get_video_metadata result). -/
structure VideoMeta where
  addedDate : ℚ
  rating : Int
  views : Int
  deriving Repr, DecidableEq

/-- One entry of the related_videos list: the candidate, its tag_overlap
and related_score annotations, and the sort-key fields taken from its
metadata. -/
structure RelatedEntry where
  video : String
  overlap : Nat
  score : ℚ
  rating : Int
  views : Int
  deriving Repr, DecidableEq

/-- len(set(current) & set(video_tags)): the number of distinct common
tags. -/
def overlapCount (current vtags : List String) : Nat :=
  ((current.filter (fun t => vtags.contains t)).dedup).length

/-- The score formula of the fallback branch (cache_manager.py lines
632-637): overlap * 3.0 + rating * 0.6 + min(views, 5000)/500.0 +
(added_date / 1e9) * 0.1. -/
def relScore (overlap : Nat) (rating : ℚ) (views : Int) (recency : ℚ) : ℚ :=
  (overlap : ℚ) * 3 + rating * (3 / 5) + ((min views 5000 : Int) : ℚ) / 500
    + recency / 1000000000 * (1 / 10)

/-- The candidate list built by the for loop: iterate the tags dict in
insertion order, skip the target itself, skip zero overlap, skip
candidates without metadata, and annotate the rest. -/
def relatedCandidates (allTags : List (String × List String))
    (metaOf : String → Option VideoMeta) (filename : String) :
    List RelatedEntry :=
  let currentTags := (allTags.lookup filename).getD []
  if currentTags.isEmpty then []
  else
    allTags.filterMap (fun p =>
      if p.1 = filename then none
      else
        let ov := overlapCount currentTags p.2
        if ov = 0 then none
        else
          match metaOf p.1 with
          | none => none
          | some m =>
              some ⟨p.1, ov, relScore ov (m.rating : ℚ) m.views m.addedDate,
                m.rating, m.views⟩)

/-- Strict lexicographic comparison of the sort key
(related_score, tag_overlap, rating, views): key of a greater than key
of b. -/
def keyGt (a b : RelatedEntry) : Prop :=
  b.score < a.score ∨ (b.score = a.score ∧
    (b.overlap < a.overlap ∨ (b.overlap = a.overlap ∧
      (b.rating < a.rating ∨ (b.rating = a.rating ∧ b.views < a.views)))))

instance (a b : RelatedEntry) : Decidable (keyGt a b) := by
  unfold keyGt
  infer_instance

/-- Stable descending insertion: walk past entries with strictly greater
key, insert before the first entry whose key is not greater (equal keys
keep their earlier position).  This is the order list.sort(key=...,
reverse=True) produces: a stable sort, descending by the key tuple. -/
def insertDesc (e : RelatedEntry) : List RelatedEntry → List RelatedEntry
  | [] => [e]
  | x :: xs => if keyGt x e then x :: insertDesc e xs else e :: x :: xs

/-- Stable descending sort by the key tuple. -/
def sortDesc (l : List RelatedEntry) : List RelatedEntry :=
  l.foldr insertDesc []

/-- get_related_videos_optimized, fallback branch: score, sort descending
by (related_score, tag_overlap, rating, views), return the first limit
entries. -/
def getRelatedVideos (allTags : List (String × List String))
    (metaOf : String → Option VideoMeta) (filename : String) (limit : Nat) :
    List RelatedEntry :=
  (sortDesc (relatedCandidates allTags metaOf filename)).take limit

theorem mem_insertDesc (e : RelatedEntry) :
    ∀ (l : List RelatedEntry) (x : RelatedEntry),
      x ∈ insertDesc e l → x = e ∨ x ∈ l := by
  intro l
  induction l with
  | nil => intro x hx; simp [insertDesc] at hx; exact Or.inl hx
  | cons a as ih =>
      intro x hx
      rw [insertDesc] at hx
      by_cases hk : keyGt a e
      · rw [if_pos hk] at hx
        rcases List.mem_cons.mp hx with h1 | h2
        · exact Or.inr (by simp [h1])
        · rcases ih x h2 with h3 | h4
          · exact Or.inl h3
          · exact Or.inr (by simp [h4])
      · rw [if_neg hk] at hx
        rcases List.mem_cons.mp hx with h1 | h2
        · exact Or.inl h1
        · exact Or.inr h2

theorem mem_sortDesc :
    ∀ (l : List RelatedEntry) (x : RelatedEntry), x ∈ sortDesc l → x ∈ l := by
  intro l
  induction l with
  | nil => intro x hx; simp [sortDesc] at hx
  | cons a as ih =>
      intro x hx
      rw [sortDesc, List.foldr_cons] at hx
      rcases mem_insertDesc a _ x hx with h1 | h2
      · simp [h1]
      · exact List.mem_cons_of_mem a (ih x h2)



def exTags : List (String × List String) :=
  [("t", ["a", "b"]), ("X", ["a"]), ("Y", ["a", "b"])]

def exMetaOf : String → Option VideoMeta := fun v =>
  if v = "X" then some ⟨0, 5, 10⟩
  else if v = "Y" then some ⟨0, 1, 0⟩
  else if v = "t" then some ⟨0, 0, 0⟩
  else none

/-- C7: the fallback related-item scorer excludes the target itself and
every zero-overlap candidate, scores each remaining candidate with
3.0 * overlap + 0.6 * rating + min(views, 5000)/500 +
(added_date/1e9) * 0.1, sorts descending by (score, overlap, rating,
views) and returns the first N; in the spec example, candidate Y with
both tags, rating 1 ranks above candidate X with one tag, rating 5. -/
theorem related_scorer_excludes_and_ranks :
    (∀ (allTags : List (String × List String))
        (metaOf : String → Option VideoMeta) (filename : String)
        (limit : Nat),
      ∀ e ∈ getRelatedVideos allTags metaOf filename limit,
        e.video ≠ filename ∧ 0 < e.overlap ∧
        (∃ m, metaOf e.video = some m ∧ e.rating = m.rating ∧
          e.views = m.views ∧
          e.score = relScore e.overlap (m.rating : ℚ) m.views m.addedDate) ∧
        (∃ vtags, (e.video, vtags) ∈ allTags ∧
          e.overlap = overlapCount ((allTags.lookup filename).getD []) vtags))
    ∧ (getRelatedVideos exTags exMetaOf "t" 20).map RelatedEntry.video
        = ["Y", "X"] := by
  constructor
  · intro allTags metaOf filename limit e he
    have h1 : e ∈ sortDesc (relatedCandidates allTags metaOf filename) :=
      List.take_subset _ _ he
    have h2 : e ∈ relatedCandidates allTags metaOf filename :=
      mem_sortDesc _ e h1
    rw [relatedCandidates] at h2
    by_cases hempty : ((allTags.lookup filename).getD []).isEmpty
    · rw [if_pos hempty] at h2
      simp at h2
    · rw [if_neg hempty] at h2
      rw [List.mem_filterMap] at h2
      obtain ⟨p, hp, hfp⟩ := h2
      by_cases hpf : p.1 = filename
      · rw [if_pos hpf] at hfp
        exact absurd hfp (by simp)
      · rw [if_neg hpf] at hfp
        by_cases hov0 :
            overlapCount ((allTags.lookup filename).getD []) p.2 = 0
        · rw [if_pos hov0] at hfp
          simp at hfp
        · rw [if_neg hov0] at hfp
          cases hm : metaOf p.1 with
          | none =>
              rw [hm] at hfp
              simp at hfp
          | some m =>
              rw [hm] at hfp
              have hfp2 := Option.some.inj hfp
              subst hfp2
              exact ⟨hpf, Nat.pos_of_ne_zero hov0,
                ⟨m, hm, rfl, rfl, rfl⟩,
                ⟨p.2, by simpa using hp, rfl⟩⟩
  · have hcand : relatedCandidates exTags exMetaOf "t"
        = [⟨"X", 1, 301/50, 5, 10⟩, ⟨"Y", 2, 33/5, 1, 0⟩] := by
      simp +decide [relatedCandidates, overlapCount, relScore, exTags,
        exMetaOf, List.lookup, List.filterMap]
      norm_num
    rw [getRelatedVideos, hcand]
    norm_num [sortDesc, insertDesc, keyGt]

theorem related_scorer_witness :
    (⟨"Y", 2, 33/5, 1, 0⟩ : RelatedEntry).video ≠ "t"
    ∧ 0 < (⟨"Y", 2, 33/5, 1, 0⟩ : RelatedEntry).overlap
    ∧ (∃ m, exMetaOf (⟨"Y", 2, 33/5, 1, 0⟩ : RelatedEntry).video = some m ∧
        (⟨"Y", 2, 33/5, 1, 0⟩ : RelatedEntry).rating = m.rating ∧
        (⟨"Y", 2, 33/5, 1, 0⟩ : RelatedEntry).views = m.views ∧
        (⟨"Y", 2, 33/5, 1, 0⟩ : RelatedEntry).score =
          relScore (⟨"Y", 2, 33/5, 1, 0⟩ : RelatedEntry).overlap
            (m.rating : ℚ) m.views m.addedDate)
    ∧ (∃ vtags, ((⟨"Y", 2, 33/5, 1, 0⟩ : RelatedEntry).video, vtags) ∈ exTags ∧
        (⟨"Y", 2, 33/5, 1, 0⟩ : RelatedEntry).overlap =
          overlapCount ((exTags.lookup "t").getD []) vtags) :=
  related_scorer_excludes_and_ranks.1 exTags exMetaOf "t" 20
    ⟨"Y", 2, 33/5, 1, 0⟩
    (by
      have hcand : relatedCandidates exTags exMetaOf "t"
          = [⟨"X", 1, 301/50, 5, 10⟩, ⟨"Y", 2, 33/5, 1, 0⟩] := by
        simp +decide [relatedCandidates, overlapCount, relScore, exTags,
          exMetaOf, List.lookup, List.filterMap]
        norm_num
      rw [getRelatedVideos, hcand]
      norm_num [sortDesc, insertDesc, keyGt])


/-! ## Popular tags (cache_manager.py get_popular_tags) -/

/-- All tag occurrences of the catalog, in dict insertion order (the
Counter update loop). -/
def allTagOccurrences (tagsMap : List (String × List String)) : List String :=
  tagsMap.foldl (fun acc p => acc ++ p.2) []

/-- Distinct tags in first-occurrence order (Counter key order). -/
def firstDedup : List String → List String
  | [] => []
  | t :: rest => t :: firstDedup (rest.filter (fun u => u != t))
  termination_by l => l.length
  decreasing_by
    simp only [List.length_cons]
    have := List.length_filter_le (fun u => u != t) rest
    omega

/-- Counter items: each distinct tag with its occurrence count. -/
def counterItems (occ : List String) : List (String × Nat) :=
  (firstDedup occ).map (fun t => (t, (occ.filter (fun u => u = t)).length))

/-- Stable descending insertion by count (Counter.most_common order:
descending count, ties in insertion order). -/
def insertByCount (e : String × Nat) :
    List (String × Nat) → List (String × Nat)
  | [] => [e]
  | x :: xs => if e.2 < x.2 then x :: insertByCount e xs else e :: x :: xs

/-- Stable descending sort by count. -/
def sortByCountDesc (l : List (String × Nat)) : List (String × Nat) :=
  l.foldr insertByCount []

/-- Counter(...).most_common(n). -/
def mostCommon (occ : List String) (n : Nat) : List (String × Nat) :=
  (sortByCountDesc (counterItems occ)).take n

/-- The state get_popular_tags touches: the cached _popular_tags list, the
_popular_tag_cache_limit and the popular_tags last_refresh stamp. -/
structure PopState where
  popularTags : List (String × Nat)
  popularTagCacheLimit : Nat
  lastRefreshPop : ℚ
  deriving Repr, DecidableEq

/-- VideoCache.get_popular_tags (cache_manager.py lines 666-691): clamp
limit into [1, 500]; decide whether the cached ranking is fresh and large
enough; if not, rebuild it up to target_limit = max(limit,
_popular_tag_cache_limit) from the database or from the tag counter; and
return the first limit entries of the cached ranking. -/
def getPopularTags (st : PopState) (useDb : Bool)
    (backendPop : Nat → List (String × Nat))
    (tagsMap : List (String × List String)) (now : ℚ) (limit : Int) :
    List (String × Nat) × PopState :=
  let l : Nat := (max 1 (min limit 500)).toNat
  let needsLimitRefresh :=
    st.popularTags.length < l ∧ st.popularTagCacheLimit < l
  if now - st.lastRefreshPop < cacheTtl ∧ ¬ needsLimitRefresh then
    (st.popularTags.take l, st)
  else
    let targetLimit := max l st.popularTagCacheLimit
    let fresh := if useDb then backendPop targetLimit
      else mostCommon (allTagOccurrences tagsMap) targetLimit
    (fresh.take l, ⟨fresh, targetLimit, now⟩)

/-- C8: get_popular_tags clamps its limit into [1, 500]: the returned list
never exceeds max(1, min(limit, 500)) entries, a non-positive limit acts
exactly like limit = 1, and any limit at or above 500 acts exactly like
limit = 500. -/
theorem popular_tags_limit_clamped :
    (∀ (st : PopState) (useDb : Bool) (backendPop : Nat → List (String × Nat))
        (tagsMap : List (String × List String)) (now : ℚ) (limit : Int),
      (getPopularTags st useDb backendPop tagsMap now limit).1.length
        ≤ ((max 1 (min limit 500)).toNat))
    ∧ (∀ (st : PopState) (useDb : Bool)
        (backendPop : Nat → List (String × Nat))
        (tagsMap : List (String × List String)) (now : ℚ) (limit : Int),
      limit ≤ 0 →
      getPopularTags st useDb backendPop tagsMap now limit
        = getPopularTags st useDb backendPop tagsMap now 1)
    ∧ (∀ (st : PopState) (useDb : Bool)
        (backendPop : Nat → List (String × Nat))
        (tagsMap : List (String × List String)) (now : ℚ) (limit : Int),
      500 ≤ limit →
      getPopularTags st useDb backendPop tagsMap now limit
        = getPopularTags st useDb backendPop tagsMap now 500) := by
  refine ⟨?_, ?_, ?_⟩
  · intro st useDb backendPop tagsMap now limit
    rw [getPopularTags]
    split
    · simp [List.length_take]
    · simp [List.length_take]
  · intro st useDb backendPop tagsMap now limit hlim
    have h : max 1 (min limit 500) = max 1 (min (1 : Int) 500) := by omega
    rw [getPopularTags, getPopularTags, h]
  · intro st useDb backendPop tagsMap now limit hlim
    have h : max 1 (min limit 500) = max 1 (min (500 : Int) 500) := by omega
    rw [getPopularTags, getPopularTags, h]

theorem popular_tags_limit_clamped_witness :
    getPopularTags ⟨[], 200, 0⟩ false (fun _ => []) [] 1000 (-5)
      = getPopularTags ⟨[], 200, 0⟩ false (fun _ => []) [] 1000 1
    ∧ getPopularTags ⟨[], 200, 0⟩ false (fun _ => []) [] 1000 7000
      = getPopularTags ⟨[], 200, 0⟩ false (fun _ => []) [] 1000 500 :=
  ⟨popular_tags_limit_clamped.2.1 ⟨[], 200, 0⟩ false (fun _ => []) [] 1000
      (-5) (by norm_num),
   popular_tags_limit_clamped.2.2 ⟨[], 200, 0⟩ false (fun _ => []) [] 1000
      7000 (by norm_num)⟩

end LSV
